import Mathlib

/-!
Verification of the batch-orchestration layer (`BatchEngine` in
`promptflow/executor/batch_engine.py`): a shallow embedding of its data
model and operations, followed by theorems settling the spec's claims.
The collaborators the orchestrator consumes (`load_data`,
`resolve_image_path`, `persist_multimedia_data`, the flow executor) are
opaque function parameters; pieces of the repository that are imported
but not visible (`dump_list_to_jsonl`, `BulkResult`) are modelled from
the spec and say so in their doc comments.
-/

set_option autoImplicit false

namespace Promptflow

/-- A filesystem path in the style of Python's pathlib: an absoluteness
flag plus a list of components. -/
structure Path where
  isAbs : Bool
  comps : List String
deriving DecidableEq

/-- Python's `/` operator on paths: an absolute right operand replaces the
left one, a relative right operand appends its components. -/
def Path.join (a b : Path) : Path :=
  if b.isAbs then b else ⟨a.isAbs, a.comps ++ b.comps⟩

/-- A JSON-like field value: scalar (string, number, boolean, null),
sequence, or nested mapping — the record-value shapes the source
dispatches on with isinstance checks. -/
inductive Value where
  | str : String → Value
  | num : Int → Value
  | bool : Bool → Value
  | null : Value
  | seq : List Value → Value
  | obj : List (String × Value) → Value

/-- A value is a scalar when it is neither a sequence (`isinstance(value,
list)`) nor a nested mapping (`isinstance(value, dict)`). -/
def Value.isScalar : Value → Bool
  | .seq _ => false
  | .obj _ => false
  | _ => true

/-- One data record: an ordered mapping from field name to value, as a
Python dict preserving insertion order. -/
abbrev Record := List (String × Value)

/-- The record-file portion of the filesystem state: which jsonl file
holds which ordered list of records. The most recent write shadows older
entries, modelling truncate-and-rewrite file semantics. -/
abbrev FS := List (Path × List Record)

/-- Write a record file, replacing any previous content at that path. -/
def FS.write (fs : FS) (p : Path) (content : List Record) : FS :=
  (p, content) :: fs

/-- Read a record file: the most recently written content at the path. -/
def FS.read : FS → Path → Option (List Record)
  | [], _ => none
  | (q, c) :: rest, p => if q = p then some c else FS.read rest p

/-- The error kinds of the orchestration layer, per the spec's error
handling design. -/
inductive BatchError where
  | mappingError : String → BatchError
  | dataSourceError : String → BatchError
  | executionError : String → BatchError
deriving DecidableEq

/-- Modelled from the spec: `BulkResult` (promptflow.executor._result, not
among the visible sources) holds the ordered output records plus run
metadata (run identifier, counts, per-record error info). The metadata is
opaque to the orchestrator, so it is a type parameter here. -/
structure BulkResult (μ : Type) where
  outputs : List Record
  metadata : μ

/-- The collaborator contracts the orchestrator consumes: the raw data
loader, the media-path resolver and the media persister. All are opaque
functions here, as the spec treats them. -/
structure Collaborators where
  loadData : Path → Except BatchError (List Record)
  resolveImagePath : Path → Value → Value
  persistMultimediaData : Record → Path → Record

/-- Modelled from the spec: the flow executor consumed by the
orchestrator — its working directory, the input-mapping application
(which validates references and merges records or fails), and the
bulk-run operation, an opaque black box that may touch the filesystem
and hence threads the `FS` state. -/
structure FlowExecutor (μ : Type) where
  workingDir : Path
  validateAndApplyInputsMapping :
    List (String × List Record) → List (String × String) →
      Except BatchError (List Record)
  execBulk : List Record → Option String → Path → FS →
    Except BatchError (BulkResult μ) × FS

/-- The fixed output file name, `OUTPUT_FILE_NAME = "output.jsonl"`. -/
def OUTPUT_FILE_NAME : String := "output.jsonl"

/-- The output file name as a relative path component. -/
def outputFileRel : Path := ⟨false, [OUTPUT_FILE_NAME]⟩

/-- Modelled from the spec: `dump_list_to_jsonl` (promptflow._utils.utils,
not among the visible sources) serializes the records one JSON object per
line into the named file, fully rewriting the file on each call. The file
content is modelled as the ordered record list itself. -/
def dumpListToJsonl (fs : FS) (file : Path) (records : List Record) : FS :=
  FS.write fs file records

namespace BatchEngine

/-- `BatchEngine._resolve_dir`: resolve a possibly-relative directory to
an absolute path against the executor's working directory. -/
def resolveDir (workingDir : Path) (dir : Path) : Path :=
  if !dir.isAbs then Path.join workingDir dir else dir

/-- One field of `BatchEngine._resolve_image`: for a list value the
source runs `for item in value: item = resolve_image_path(input_dir,
item)`, which rebinds the loop variable and discards each result, then
stores the list back unchanged; for a dict value the field is replaced
with the resolver's result; any other value is left untouched. -/
def resolveImageValue (coll : Collaborators) (inputDir : Path) : Value → Value
  | .seq items => .seq items
  | .obj fields => coll.resolveImagePath inputDir (.obj fields)
  | v => v

/-- `BatchEngine._resolve_image`: rewrite each field of one record in
place, field by field in order. -/
def resolveImage (coll : Collaborators) (inputDir : Path)
    (oneLineData : Record) : Record :=
  oneLineData.map (fun kv => (kv.1, resolveImageValue coll inputDir kv.2))

/-- `BatchEngine._resolve_data`: for each named input source, resolve its
directory, load its records, resolve media in every record against that
resolved directory, and collect the results keyed by source name. -/
def resolveData (workingDir : Path) (coll : Collaborators) :
    List (String × Path) → Except BatchError (List (String × List Record))
  | [] => .ok []
  | (inputKey, inputDir) :: rest =>
    let inputDir' := resolveDir workingDir inputDir
    match coll.loadData inputDir' with
    | .error e => .error e
    | .ok fileData =>
      match resolveData workingDir coll rest with
      | .error e => .error e
      | .ok restResult =>
        .ok ((inputKey, fileData.map (resolveImage coll inputDir')) :: restResult)

/-- `BatchEngine._get_input_dicts`: load and media-resolve all sources,
then apply the inputs mapping via the executor. -/
def getInputDicts {μ : Type} (eng : FlowExecutor μ) (coll : Collaborators)
    (inputDirs : List (String × Path))
    (inputsMapping : List (String × String)) :
    Except BatchError (List Record) :=
  match resolveData eng.workingDir coll inputDirs with
  | .error e => .error e
  | .ok inputDicts => eng.validateAndApplyInputsMapping inputDicts inputsMapping

/-- `BatchEngine._persist_outputs`: persist media in each output record,
write the full record list to `output_dir / OUTPUT_FILE_NAME`, and return
the persisted records. -/
def persistOutputs (coll : Collaborators) (outputs : List Record)
    (outputDir : Path) (fs : FS) : List Record × FS :=
  let persisted := outputs.map (fun output => coll.persistMultimediaData output outputDir)
  let outputFile := Path.join outputDir outputFileRel
  (persisted, dumpListToJsonl fs outputFile persisted)

/-- `BatchEngine.run`: build mapped input records, resolve the output
directory, invoke the executor's bulk run, replace the result's outputs
with the persisted form, and return the result. Failures propagate with
the filesystem state reached so far. -/
def run {μ : Type} (eng : FlowExecutor μ) (coll : Collaborators)
    (inputDirs : List (String × Path))
    (inputsMapping : List (String × String))
    (outputDir : Path) (runId : Option String) (fs : FS) :
    Except BatchError (BulkResult μ) × FS :=
  match getInputDicts eng coll inputDirs inputsMapping with
  | .error e => (.error e, fs)
  | .ok inputDicts =>
    let outputDir' := resolveDir eng.workingDir outputDir
    match eng.execBulk inputDicts runId outputDir' fs with
    | (.error e, fs') => (.error e, fs')
    | (.ok batchResult, fs') =>
      let pr := persistOutputs coll batchResult.outputs outputDir' fs'
      (.ok { batchResult with outputs := pr.1 }, pr.2)

end BatchEngine

/-! Concrete fixtures used by witnesses and counterexamples. -/

/-- An absolute working directory. -/
def wd0 : Path := ⟨true, ["root"]⟩

/-- An absolute output directory. -/
def dOut : Path := ⟨true, ["out"]⟩

/-- A relative input-source directory. -/
def dRel : Path := ⟨false, ["data1"]⟩

/-- A path distinct from the output file. -/
def pOther : Path := ⟨true, ["elsewhere"]⟩

/-- A media-reference value in nested-mapping form. -/
def imgRef : Value := Value.obj [("path", Value.str "img.png")]

/-- Concrete collaborators: the loader returns one record with a scalar
field and a media field, the resolver rewrites mapping-shaped values to a
string rooted at the base directory, and the persister rewrites every
field to a string rooted at the output directory. -/
def collFix : Collaborators :=
  { loadData := fun _ => .ok [[("text", Value.str "hello"),
      ("pic", Value.obj [("path", Value.str "img.png")])]]
  , resolveImagePath := fun d v =>
      match v with
      | .obj _ => Value.str (String.intercalate "/" (d.comps ++ ["resolved"]))
      | v => v
  , persistMultimediaData := fun r d =>
      r.map (fun kv =>
        (kv.1, Value.str (String.intercalate "/" (d.comps ++ ["persisted"])))) }

/-! Theorems settling the claims. -/

/-- Helper: the per-field media resolution leaves scalar values alone. -/
theorem resolveImageValue_scalar (coll : Collaborators) (d : Path) (v : Value)
    (h : v.isScalar = true) : BatchEngine.resolveImageValue coll d v = v := by
  cases v <;> simp_all [Value.isScalar, BatchEngine.resolveImageValue]

/-- C6: `_resolve_dir` returns an absolute path unchanged, resolves a
relative path against the working-directory root, and — when that root is
absolute — is idempotent. -/
theorem resolveDir_spec (workingDir p : Path) (h : workingDir.isAbs = true) :
    (p.isAbs = true → BatchEngine.resolveDir workingDir p = p) ∧
    (p.isAbs = false →
      BatchEngine.resolveDir workingDir p = Path.join workingDir p) ∧
    BatchEngine.resolveDir workingDir (BatchEngine.resolveDir workingDir p)
      = BatchEngine.resolveDir workingDir p := by
  unfold BatchEngine.resolveDir Path.join
  cases hp : p.isAbs <;> simp [hp, h]

/-- Witness for C6 at a concrete relative path and absolute root. -/
theorem resolveDir_spec_witness :
    wd0.isAbs = true ∧
    (((dRel.isAbs = true → BatchEngine.resolveDir wd0 dRel = dRel) ∧
      (dRel.isAbs = false →
        BatchEngine.resolveDir wd0 dRel = Path.join wd0 dRel) ∧
      BatchEngine.resolveDir wd0 (BatchEngine.resolveDir wd0 dRel)
        = BatchEngine.resolveDir wd0 dRel)) :=
  ⟨by decide, resolveDir_spec wd0 dRel (by decide)⟩

/-- C7: a field whose value is a scalar (neither a sequence nor a nested
mapping) is left unchanged, at its position, by `_resolve_image`. -/
theorem resolveImage_scalar_unchanged (coll : Collaborators) (d : Path)
    (r : Record) (i : Nat) (kv : String × Value)
    (hget : r[i]? = some kv) (hs : kv.2.isScalar = true) :
    (BatchEngine.resolveImage coll d r)[i]? = some kv := by
  unfold BatchEngine.resolveImage
  rw [List.getElem?_map, hget]
  simp [resolveImageValue_scalar coll d kv.2 hs]

/-- Witness for C7: a string-valued field survives `_resolve_image`. -/
theorem resolveImage_scalar_unchanged_witness :
    (([("text", Value.str "hello")] : Record)[0]? =
      some ("text", Value.str "hello")) ∧
    (Value.str "hello").isScalar = true ∧
    (BatchEngine.resolveImage collFix dOut [("text", Value.str "hello")])[0]? =
      some ("text", Value.str "hello") :=
  ⟨rfl, rfl,
    resolveImage_scalar_unchanged collFix dOut [("text", Value.str "hello")] 0
      ("text", Value.str "hello") rfl rfl⟩

/-- C9: `_resolve_image` preserves the record's ordered field-name list —
it never adds or removes a field. -/
theorem resolveImage_preserves_fields (coll : Collaborators) (d : Path)
    (r : Record) :
    (BatchEngine.resolveImage coll d r).map Prod.fst = r.map Prod.fst ∧
    (BatchEngine.resolveImage coll d r).length = r.length := by
  constructor
  · induction r with
    | nil => rfl
    | cons hd tl ih => simp_all [BatchEngine.resolveImage]
  · simp [BatchEngine.resolveImage]

/-- C10: `_persist_outputs` returns one record per output record, in
order: element i is `persist_multimedia_data` applied to input element i. -/
theorem persistOutputs_pointwise (coll : Collaborators)
    (outputs : List Record) (outputDir : Path) (fs : FS) :
    (BatchEngine.persistOutputs coll outputs outputDir fs).1.length
      = outputs.length ∧
    ∀ i : Nat, (BatchEngine.persistOutputs coll outputs outputDir fs).1[i]? =
      (outputs[i]?).map
        (fun output => coll.persistMultimediaData output outputDir) := by
  constructor
  · simp [BatchEngine.persistOutputs]
  · intro i
    simp [BatchEngine.persistOutputs]

/-- C4 counterexample: the output file's line holds the media-persisted
form of the record, not the raw record `r_i` handed to
`_persist_outputs`. -/
theorem persistOutputs_raw_line_cex :
    FS.read (BatchEngine.persistOutputs collFix [[("img", Value.null)]]
        dOut []).2 (Path.join dOut outputFileRel)
      ≠ some [[("img", Value.null)]] := by
  intro h
  rw [show FS.read (BatchEngine.persistOutputs collFix [[("img", Value.null)]]
        dOut []).2 (Path.join dOut outputFileRel)
      = some [[("img", Value.str "out/persisted")]] from rfl] at h
  injection h with h1
  injection h1 with h2 h3
  injection h2 with h4 h5
  injection h4 with h6 h7
  exact Value.noConfusion h7

/-- C4 (amended): `_persist_outputs` writes exactly the fixed-name file
`output_dir / output.jsonl`, whose content is the ordered sequence of
media-persisted records (line i = persisted form of r_i, nothing else),
fully replacing any previous content; every other path is untouched. -/
theorem persistOutputs_file (coll : Collaborators) (outputs : List Record)
    (outputDir : Path) (fs : FS) :
    FS.read (BatchEngine.persistOutputs coll outputs outputDir fs).2
        (Path.join outputDir outputFileRel) =
      some (outputs.map
        (fun output => coll.persistMultimediaData output outputDir)) ∧
    ∀ p : Path, p ≠ Path.join outputDir outputFileRel →
      FS.read (BatchEngine.persistOutputs coll outputs outputDir fs).2 p
        = FS.read fs p := by
  constructor
  · simp [BatchEngine.persistOutputs, dumpListToJsonl, FS.write, FS.read]
  · intro p hp
    simp [BatchEngine.persistOutputs, dumpListToJsonl, FS.write, FS.read,
      Ne.symm hp]

/-- Witness for C4's amended theorem at a concrete record and directory. -/
theorem persistOutputs_file_witness :
    (FS.read (BatchEngine.persistOutputs collFix [[("img", Value.null)]]
        dOut []).2 (Path.join dOut outputFileRel) =
      some ([[("img", Value.null)]].map
        (fun output => collFix.persistMultimediaData output dOut))) ∧
    pOther ≠ Path.join dOut outputFileRel ∧
    FS.read (BatchEngine.persistOutputs collFix [[("img", Value.null)]]
        dOut []).2 pOther = FS.read [] pOther :=
  ⟨(persistOutputs_file collFix [[("img", Value.null)]] dOut []).1,
   by decide,
   (persistOutputs_file collFix [[("img", Value.null)]] dOut []).2 pOther
     (by decide)⟩

/-- C2 (code bug): at this record the list branch of `_resolve_image`
leaves the list element unresolved even though the resolver would have
rewritten it — the source's loop rebinds its loop variable and discards
the resolver's return value, then stores the list back unchanged. -/
theorem resolveImage_list_element_not_replaced :
    BatchEngine.resolveImage collFix dOut [("pic", Value.seq [imgRef])] =
      [("pic", Value.seq [imgRef])] ∧
    collFix.resolveImagePath dOut imgRef ≠ imgRef := by
  refine ⟨rfl, ?_⟩
  intro h
  exact Value.noConfusion h

/-- A flow executor whose input-mapping application always fails with a
mapping error, as when the mapping references a missing source. -/
def engFail : FlowExecutor Nat :=
  { workingDir := wd0
  , validateAndApplyInputsMapping :=
      fun _ _ => .error (BatchError.mappingError "missing_source")
  , execBulk :=
      fun _ _ _ fs => (.error (BatchError.executionError "boom"), fs) }

/-- A flow executor that succeeds: the mapping application yields one
merged record and the bulk run echoes its inputs as outputs with
metadata 7, leaving the filesystem alone. -/
def engOk : FlowExecutor Nat :=
  { workingDir := wd0
  , validateAndApplyInputsMapping :=
      fun _ _ => .ok [[("question", Value.str "q")]]
  , execBulk := fun ins _ _ fs => (.ok ⟨ins, 7⟩, fs) }

/-- The persisted form of `engOk`'s single output record under `dOut`. -/
def persistedQ : Record := [("question", Value.str "out/persisted")]

/-- C1: on a successful `run`, the returned result's `outputs` field is
exactly the record sequence stored in the output file, in the same
order. -/
theorem run_outputs_equal_file {μ : Type} (eng : FlowExecutor μ)
    (coll : Collaborators) (inputDirs : List (String × Path))
    (inputsMapping : List (String × String)) (outputDir : Path)
    (runId : Option String) (fs fs' : FS) (res : BulkResult μ)
    (h : BatchEngine.run eng coll inputDirs inputsMapping outputDir runId fs
      = (.ok res, fs')) :
    FS.read fs'
        (Path.join (BatchEngine.resolveDir eng.workingDir outputDir)
          outputFileRel)
      = some res.outputs := by
  unfold BatchEngine.run at h
  cases hg : BatchEngine.getInputDicts eng coll inputDirs inputsMapping with
  | error e => rw [hg] at h; exact absurd h (by simp)
  | ok ids =>
    rw [hg] at h
    dsimp only at h
    cases hb : eng.execBulk ids runId
        (BatchEngine.resolveDir eng.workingDir outputDir) fs with
    | mk r fs₂ =>
      rw [hb] at h
      cases r with
      | error e => exact absurd h (by simp)
      | ok br =>
        dsimp only [BatchEngine.persistOutputs] at h
        have h1 := congrArg Prod.fst h
        have h2 := congrArg Prod.snd h
        dsimp only at h1 h2
        injection h1 with h1
        subst h1
        rw [← h2]
        simp [dumpListToJsonl, FS.write, FS.read]

/-- Witness for C1 on the concrete succeeding executor. -/
theorem run_outputs_equal_file_witness :
    (BatchEngine.run engOk collFix [] [] dOut none [] =
      (.ok ⟨[persistedQ], 7⟩,
        [(Path.join dOut outputFileRel, [persistedQ])])) ∧
    FS.read [(Path.join dOut outputFileRel, [persistedQ])]
        (Path.join (BatchEngine.resolveDir engOk.workingDir dOut)
          outputFileRel)
      = some (BulkResult.outputs ⟨[persistedQ], 7⟩) :=
  ⟨rfl,
   run_outputs_equal_file engOk collFix [] [] dOut none []
     [(Path.join dOut outputFileRel, [persistedQ])] ⟨[persistedQ], 7⟩ rfl⟩

/-- C3: when the input-mapping application fails with a mapping error,
`run` propagates exactly that error and leaves the filesystem untouched,
whatever the executor's bulk-run operation would have done — the engine
is never invoked and no output file is created or modified. -/
theorem run_mapping_error_no_write {μ : Type} (eng : FlowExecutor μ)
    (coll : Collaborators) (inputDirs : List (String × Path))
    (inputsMapping : List (String × String)) (outputDir : Path)
    (runId : Option String) (fs : FS)
    (srcs : List (String × List Record)) (msg : String)
    (hres : BatchEngine.resolveData eng.workingDir coll inputDirs = .ok srcs)
    (hmap : eng.validateAndApplyInputsMapping srcs inputsMapping =
      .error (BatchError.mappingError msg)) :
    BatchEngine.run eng coll inputDirs inputsMapping outputDir runId fs
      = (.error (BatchError.mappingError msg), fs) ∧
    ∀ eb : List Record → Option String → Path → FS →
        Except BatchError (BulkResult μ) × FS,
      BatchEngine.run { eng with execBulk := eb } coll inputDirs
        inputsMapping outputDir runId fs
      = (.error (BatchError.mappingError msg), fs) := by
  constructor
  · unfold BatchEngine.run BatchEngine.getInputDicts
    rw [hres]
    dsimp only
    rw [hmap]
  · intro eb
    unfold BatchEngine.run BatchEngine.getInputDicts
    dsimp only
    rw [hres]
    dsimp only
    rw [hmap]

/-- Witness for C3 on the concrete failing executor. -/
theorem run_mapping_error_no_write_witness :
    (BatchEngine.resolveData engFail.workingDir collFix [] = .ok []) ∧
    (engFail.validateAndApplyInputsMapping [] [] =
      .error (BatchError.mappingError "missing_source")) ∧
    (BatchEngine.run engFail collFix [] [] dOut none []
        = (.error (BatchError.mappingError "missing_source"), []) ∧
      ∀ eb : List Record → Option String → Path → FS →
          Except BatchError (BulkResult Nat) × FS,
        BatchEngine.run { engFail with execBulk := eb } collFix [] []
          dOut none []
        = (.error (BatchError.mappingError "missing_source"), [])) :=
  ⟨rfl, rfl,
   run_mapping_error_no_write engFail collFix [] [] dOut none [] []
     "missing_source" rfl rfl⟩

/-- C8: on a successful `run`, the returned result is the executor's
result with only its `outputs` field replaced (by the persisted form);
the metadata — every other field — is exactly what the executor
produced. -/
theorem run_mutates_only_outputs {μ : Type} (eng : FlowExecutor μ)
    (coll : Collaborators) (inputDirs : List (String × Path))
    (inputsMapping : List (String × String)) (outputDir : Path)
    (runId : Option String) (fs fs₂ : FS) (ids : List Record)
    (br : BulkResult μ)
    (h1 : BatchEngine.getInputDicts eng coll inputDirs inputsMapping
      = .ok ids)
    (h2 : eng.execBulk ids runId
        (BatchEngine.resolveDir eng.workingDir outputDir) fs
      = (.ok br, fs₂)) :
    BatchEngine.run eng coll inputDirs inputsMapping outputDir runId fs =
      (.ok { outputs := (BatchEngine.persistOutputs coll br.outputs
              (BatchEngine.resolveDir eng.workingDir outputDir) fs₂).1,
             metadata := br.metadata },
       (BatchEngine.persistOutputs coll br.outputs
          (BatchEngine.resolveDir eng.workingDir outputDir) fs₂).2) := by
  unfold BatchEngine.run
  rw [h1]
  dsimp only
  rw [h2]

/-- Witness for C8 on the concrete succeeding executor. -/
theorem run_mutates_only_outputs_witness :
    (BatchEngine.getInputDicts engOk collFix [] []
      = .ok [[("question", Value.str "q")]]) ∧
    (engOk.execBulk [[("question", Value.str "q")]] none
        (BatchEngine.resolveDir engOk.workingDir dOut) []
      = (.ok ⟨[[("question", Value.str "q")]], 7⟩, [])) ∧
    BatchEngine.run engOk collFix [] [] dOut none [] =
      (.ok { outputs := (BatchEngine.persistOutputs collFix
              [[("question", Value.str "q")]]
              (BatchEngine.resolveDir engOk.workingDir dOut) []).1,
             metadata := 7 },
       (BatchEngine.persistOutputs collFix [[("question", Value.str "q")]]
          (BatchEngine.resolveDir engOk.workingDir dOut) []).2) :=
  ⟨rfl, rfl,
   run_mutates_only_outputs engOk collFix [] [] dOut none [] []
     [[("question", Value.str "q")]] ⟨[[("question", Value.str "q")]], 7⟩
     rfl rfl⟩

/-- C5: every source's records are media-resolved against that source's
own resolved directory — the directory bound to the source name, passed
through `_resolve_dir` — not against any other directory. -/
theorem resolveData_uses_source_dir (workingDir : Path)
    (coll : Collaborators) (inputDirs : List (String × Path)) (k : String)
    (d : Path) (m : List (String × List Record))
    (hmem : (k, d) ∈ inputDirs)
    (hnodup : (inputDirs.map Prod.fst).Nodup)
    (hok : BatchEngine.resolveData workingDir coll inputDirs = .ok m) :
    ∃ raw, coll.loadData (BatchEngine.resolveDir workingDir d) = .ok raw ∧
      m.lookup k = some (raw.map
        (BatchEngine.resolveImage coll
          (BatchEngine.resolveDir workingDir d))) := by
  induction inputDirs generalizing m with
  | nil => cases hmem
  | cons hd tl ih =>
    obtain ⟨k₁, d₁⟩ := hd
    unfold BatchEngine.resolveData at hok
    dsimp only at hok
    cases hl : coll.loadData (BatchEngine.resolveDir workingDir d₁) with
    | error e => rw [hl] at hok; exact absurd hok (by simp)
    | ok fileData =>
      rw [hl] at hok
      cases hr : BatchEngine.resolveData workingDir coll tl with
      | error e => rw [hr] at hok; exact absurd hok (by simp)
      | ok restResult =>
        rw [hr] at hok
        injection hok with hok
        subst hok
        rcases List.mem_cons.mp hmem with heq | hmem'
        · injection heq with hk hd
          subst hk
          subst hd
          exact ⟨fileData, hl, by simp [List.lookup]⟩
        · have hnd := List.nodup_cons.mp hnodup
          have hk₁ : k₁ ∉ tl.map Prod.fst := hnd.1
          have hkmem : k ∈ tl.map Prod.fst :=
            List.mem_map_of_mem Prod.fst hmem'
          have hne : (k == k₁) = false :=
            beq_false_of_ne (fun h => hk₁ (h ▸ hkmem))
          have hrec := ih restResult hmem' hnd.2 hr
          simpa [List.lookup, hne] using hrec

/-- Witness for C5: one relative source directory, resolved against the
root, is the base used for its records' media resolution. -/
theorem resolveData_uses_source_dir_witness :
    (("docs", dRel) ∈ [("docs", dRel)]) ∧
    (([("docs", dRel)].map Prod.fst).Nodup) ∧
    (BatchEngine.resolveData wd0 collFix [("docs", dRel)] =
      .ok [("docs", [[("text", Value.str "hello"),
        ("pic", Value.str "root/data1/resolved")]])]) ∧
    ∃ raw, collFix.loadData (BatchEngine.resolveDir wd0 dRel) = .ok raw ∧
      ([("docs", [[("text", Value.str "hello"),
          ("pic", Value.str "root/data1/resolved")]])]).lookup "docs"
        = some (raw.map
            (BatchEngine.resolveImage collFix
              (BatchEngine.resolveDir wd0 dRel))) :=
  ⟨by decide, by decide, rfl,
   resolveData_uses_source_dir wd0 collFix [("docs", dRel)] "docs" dRel
     [("docs", [[("text", Value.str "hello"),
       ("pic", Value.str "root/data1/resolved")]])]
     (by decide) (by decide) rfl⟩

end Promptflow
